import Mathlib

/-!
Verification development for the Rinna auxiliary Python tooling:
report generation service (renderer dispatch, template catalog),
configuration loader, and the Swagger YAML/JSON synchronization tool.

Each definition is a shallow embedding of the corresponding Python
function from the repository sources; file and line references are
given in the doc comments.
-/

namespace Rinna

/-- Rendering engines, from rinna.reports.renderer.RenderingEngine
(renderer.py lines 35-40). -/
inductive RenderingEngine where
  | weasyprint
  | reportlab
  | xhtml2pdf
  | docmosis
deriving DecidableEq

/-- String value of the engine, as in the Python str-valued Enum. -/
def RenderingEngine.value : RenderingEngine → String
  | .weasyprint => "weasyprint"
  | .reportlab => "reportlab"
  | .xhtml2pdf => "xhtml2pdf"
  | .docmosis => "docmosis"

/-- Semantics of the Python call RenderingEngine(s): look the string up among
the enum values, raising ValueError (modelled as Except.error) otherwise. -/
def RenderingEngine.ofString (s : String) : Except String RenderingEngine :=
  if s = "weasyprint" then .ok .weasyprint
  else if s = "reportlab" then .ok .reportlab
  else if s = "xhtml2pdf" then .ok .xhtml2pdf
  else if s = "docmosis" then .ok .docmosis
  else .error (s ++ " is not a valid RenderingEngine")

/-- An engine designator as it flows through the Python code: either a raw
string or an already-constructed RenderingEngine member (the code accepts
Union types everywhere). -/
inductive EngineArg where
  | str (s : String)
  | enum (e : RenderingEngine)
deriving DecidableEq

/-- Conversion performed at the top of get_renderer (service.py lines 81-82):
strings go through the RenderingEngine constructor, which can raise. -/
def EngineArg.toEngine : EngineArg → Except String RenderingEngine
  | .str s => RenderingEngine.ofString s
  | .enum e => .ok e

/-- Value stored under the engine key of a result record
(service.py line 207: the engine string if it is a string, its value
attribute otherwise). -/
def EngineArg.recordValue : EngineArg → String
  | .str s => s
  | .enum e => e.value

/-- Report formats, from rinna.reports.renderer.ReportFormat
(renderer.py lines 27-32). -/
inductive ReportFormat where
  | pdf
  | html
  | docx
  | png
deriving DecidableEq

/-- String value of the format, as in the Python str-valued Enum. -/
def ReportFormat.value : ReportFormat → String
  | .pdf => "pdf"
  | .html => "html"
  | .docx => "docx"
  | .png => "png"

/-- Semantics of the Python call ReportFormat(s). -/
def ReportFormat.ofString (s : String) : Except String ReportFormat :=
  if s = "pdf" then .ok .pdf
  else if s = "html" then .ok .html
  else if s = "docx" then .ok .docx
  else if s = "png" then .ok .png
  else .error (s ++ " is not a valid ReportFormat")

/-- A format designator: either a raw string or a ReportFormat member. -/
inductive FormatArg where
  | str (s : String)
  | fmt (f : ReportFormat)
deriving DecidableEq

/-- Conversion at service.py lines 157-158. -/
def FormatArg.toFormat : FormatArg → Except String ReportFormat
  | .str s => ReportFormat.ofString s
  | .fmt f => .ok f

/-- Lookup in a Python dict modelled as an association list whose keys are
unique. -/
def dictGet {α β : Type} [DecidableEq α] : List (α × β) → α → Option β
  | [], _ => none
  | (k, v) :: rest, key => if key = k then some v else dictGet rest key

/-- Assignment d[k] = v on a Python dict: replaces the value in place when the
key is present (keeping its position, as Python dicts do), appends at the end
otherwise. -/
def dictSet {α β : Type} [DecidableEq α] : List (α × β) → α → β → List (α × β)
  | [], key, v => [(key, v)]
  | (k, w) :: rest, key, v =>
      if key = k then (key, v) :: rest else (k, w) :: dictSet rest key v

/-- Keys of an association list are pairwise distinct (the invariant of every
Python dict). -/
def keysNodup {α β : Type} (d : List (α × β)) : Prop :=
  (d.map Prod.fst).Nodup

/-- A JSON-representable Python value: None, bool, int, str, list, dict.
This covers the values handled by json.load and yaml.safe_load in the
repository (floating point numbers are outside this embedding). -/
inductive JsonVal where
  | null
  | bool (b : Bool)
  | int (i : Int)
  | str (s : String)
  | arr (items : List JsonVal)
  | obj (members : List (String × JsonVal))

/-- A renderer instance produced by create_renderer: records which engine's
concrete renderer class was constructed, together with a creation counter so
that distinct constructions give distinct instances (Python object identity). -/
structure Renderer where
  engine : RenderingEngine
  id : Nat
deriving DecidableEq

/-- Error message raised by create_renderer when the library backing an engine
is not importable (renderer.py lines 319-336; punctuation simplified). -/
def unavailableMessage : RenderingEngine → String
  | .weasyprint => "WeasyPrint is not available. Install with pip install weasyprint"
  | .reportlab => "ReportLab is not available. Install with pip install reportlab"
  | .xhtml2pdf => "XHTML2PDF is not available. Install with pip install xhtml2pdf"
  | .docmosis => "Docmosis renderer is not available."

/-- Model of create_renderer (renderer.py lines 299-340) after the
string-to-enum conversion: when the library backing the engine is importable
(the avail flag, standing for the WEASYPRINT_AVAILABLE and similar module
constants) it returns a fresh instance of that engine's renderer class,
otherwise it raises ValueError. The fresh argument supplies the identity of
the new instance. -/
def create_renderer (avail : RenderingEngine → Bool) (fresh : Nat)
    (engine : RenderingEngine) : Except String Renderer :=
  if avail engine then .ok ⟨engine, fresh⟩
  else .error (unavailableMessage engine)

/-- Mutable state of a ReportService relevant to renderer dispatch: the
default engine fixed at construction, the _renderers cache, and a counter
supplying fresh instance identities. -/
structure ServiceState where
  default_engine : RenderingEngine
  renderers : List (RenderingEngine × Renderer)
  fresh : Nat
deriving DecidableEq

/-- ReportService.__init__ (service.py lines 36-69): the renderer cache
starts empty. -/
def ReportService.init (default_engine : RenderingEngine) : ServiceState :=
  ⟨default_engine, [], 0⟩

/-- Model of ReportService.get_renderer (service.py lines 71-103), after the
string argument has been converted to an enum member. On a cache miss it
tries create_renderer; on ValueError it falls back to the default engine when
the requested engine is not the default (creating the default renderer when
it is not cached, which can itself raise, uncaught), and re-raises when the
requested engine is the default. Every successful path stores the returned
instance in the cache under the requested engine's key. -/
def get_renderer (avail : RenderingEngine → Bool) (st : ServiceState)
    (engine : RenderingEngine) : Except String (Renderer × ServiceState) :=
  match dictGet st.renderers engine with
  | some r => .ok (r, st)
  | none =>
    match create_renderer avail st.fresh engine with
    | .ok r =>
        .ok (r, ⟨st.default_engine, dictSet st.renderers engine r, st.fresh + 1⟩)
    | .error e =>
        if engine = st.default_engine then
          .error e
        else
          match dictGet st.renderers st.default_engine with
          | none =>
            match create_renderer avail st.fresh st.default_engine with
            | .ok r =>
                .ok (r, ⟨st.default_engine, dictSet st.renderers engine r, st.fresh + 1⟩)
            | .error e2 => .error e2
          | some rd =>
              .ok (rd, ⟨st.default_engine, dictSet st.renderers engine rd, st.fresh⟩)

/-- get_renderer as called with a string-or-enum argument
(service.py lines 81-82 plus the dispatch above). -/
def get_renderer_arg (avail : RenderingEngine → Bool) (st : ServiceState)
    (engine : EngineArg) : Except String (Renderer × ServiceState) :=
  match engine.toEngine with
  | .ok e => get_renderer avail st e
  | .error m => .error m

/-- Invariant: the cache entry stored under the default engine's key, when
present, is an instance of the default engine's renderer class. This holds
for every reachable service state. -/
def DefaultKeyOk (st : ServiceState) : Prop :=
  ((dictGet st.renderers st.default_engine).all
    fun r => r.engine == st.default_engine) = true

/-- A report template, from rinna.reports.renderer.ReportTemplate
(renderer.py lines 43-79). The engine field is stored exactly as supplied:
catalog loading stores the raw string from the JSON file, while callers of
the constructor usually pass an enum member. -/
structure ReportTemplate where
  template_id : String
  path : String
  title : String
  description : String
  engine : EngineArg
  metadata : List (String × JsonVal)

/-- One entry of the templates list of catalog.json as read by _load_catalog.
Fields are the JSON string fields of the entry (none when the key is absent);
metadata is the parsed JSON object stored under the metadata key (empty when
absent). -/
structure CatalogEntry where
  id : Option String
  path : Option String
  title : Option String
  description : Option String
  engine : Option String
  metadata : List (String × JsonVal)

/-- The ReportTemplate built for a catalog entry whose id is the non-empty
string tid (renderer.py lines 119-129): the path is joined to the templates
directory, the title defaults to the id, the description to the empty string,
and the engine to RenderingEngine.WEASYPRINT. -/
def templateOfEntry (templates_dir : String) (e : CatalogEntry)
    (tid : String) : ReportTemplate :=
  ⟨tid, templates_dir ++ "/" ++ e.path.getD "", e.title.getD tid,
   e.description.getD "", (e.engine.map EngineArg.str).getD (.enum .weasyprint),
   e.metadata⟩

/-- An entry is loaded only when its id field is present and non-empty
(renderer.py lines 114-117: `if not template_id` skips the entry with a
warning, which covers both an absent id and a falsy one such as the empty
string). -/
def entryIdOk (e : CatalogEntry) : Bool :=
  match e.id with
  | none => false
  | some s => s != ""

/-- The loop of _load_catalog over the catalog entries (renderer.py lines
113-129): entries without a usable id are skipped with a warning, the rest
are assigned into the templates dict. -/
def load_entries (templates_dir : String) :
    List CatalogEntry → List (String × ReportTemplate) → List (String × ReportTemplate)
  | [], acc => acc
  | e :: rest, acc =>
    match e.id with
    | none => load_entries templates_dir rest acc
    | some tid =>
      if tid = "" then load_entries templates_dir rest acc
      else load_entries templates_dir rest
        (dictSet acc tid (templateOfEntry templates_dir e tid))

/-- Model of TemplateManager._load_catalog (renderer.py lines 101-134).
The input models the catalog file: none when catalog.json does not exist,
some (.error m) when opening or JSON-parsing it raises (caught and logged,
leaving the templates dict empty), and some (.ok entries) for the parsed
templates list. -/
def load_catalog (templates_dir : String)
    (catalog : Option (Except String (List CatalogEntry))) :
    List (String × ReportTemplate) :=
  match catalog with
  | none => []
  | some (.error _) => []
  | some (.ok entries) => load_entries templates_dir entries []

/-- State of a TemplateManager (renderer.py lines 82-99). -/
structure TemplateManagerState where
  templates_dir : String
  templates : List (String × ReportTemplate)

/-- TemplateManager.__init__: load the catalog if present; a missing or
malformed catalog leaves the templates dict empty and is not fatal. -/
def TemplateManager.init (templates_dir : String)
    (catalog : Option (Except String (List CatalogEntry))) : TemplateManagerState :=
  ⟨templates_dir, load_catalog templates_dir catalog⟩

/-- TemplateManager.get_template (renderer.py lines 136-146). -/
def get_template (st : TemplateManagerState) (template_id : String) :
    Option ReportTemplate :=
  dictGet st.templates template_id

/-- TemplateManager.list_templates (renderer.py lines 148-155): the values of
the templates dict, in insertion order. -/
def list_templates (st : TemplateManagerState) : List ReportTemplate :=
  st.templates.map Prod.snd

/-- TemplateManager.add_template (renderer.py lines 157-164): plain dict
assignment keyed by the template id. -/
def add_template (st : TemplateManagerState) (t : ReportTemplate) :
    TemplateManagerState :=
  ⟨st.templates_dir, dictSet st.templates t.template_id t⟩

/-- Invariant of the templates dict: each entry is stored under its own
template id. -/
def TemplateKeysMatch (d : List (String × ReportTemplate)) : Prop :=
  ∀ p ∈ d, p.2.template_id = p.1

/-- A Python exception relevant to the report API paths. -/
inductive PyErr where
  | valueError (msg : String)
  | importError (msg : String)
  | httpException (status_code : Nat) (detail : String)
deriving DecidableEq

/-- str() of the exception, as interpolated into HTTP error details.
For HTTPException this is the string of its argument tuple; the exact
punctuation is immaterial to every claim. -/
def PyErr.message : PyErr → String
  | .valueError m => m
  | .importError m => m
  | .httpException c d => "(" ++ toString c ++ ", " ++ d ++ ")"

/-- A value of a report result record. Wall-clock derived values (timestamps
and elapsed generation time) are outside this embedding and are represented
by the opaque time constructor. -/
inductive RVal where
  | s (v : String)
  | n (v : Nat)
  | nil
  | time
deriving DecidableEq

/-- The error-status result dict of generate_report (service.py lines
217-225), with its keys in source order. -/
def errorRecord (report_id template_id : String) (fmt : ReportFormat)
    (engine : EngineArg) (msg : String) : List (String × RVal) :=
  [("report_id", .s report_id), ("template_id", .s template_id),
   ("format", .s fmt.value), ("engine", .s engine.recordValue),
   ("error", .s msg), ("timestamp", .time), ("status", .s "error")]

/-- The success-status result dict of generate_report (service.py lines
203-213), with its keys in source order. The path is None when save was
false; size_bytes is len(content). -/
def successRecord (report_id template_id : String) (fmt : ReportFormat)
    (engine : EngineArg) (path : Option String) (content : List Nat) :
    List (String × RVal) :=
  [("report_id", .s report_id), ("template_id", .s template_id),
   ("format", .s fmt.value), ("engine", .s engine.recordValue),
   ("file_path", match path with | some p => .s p | none => .nil),
   ("size_bytes", .n content.length), ("generation_time_seconds", .time),
   ("timestamp", .time), ("status", .s "success")]

/-- Model of ReportService.generate_report (service.py lines 125-225).
Inputs standing for the effects: render is the renderer's render method
(its data argument is fixed and absorbed into the function), writeErr the
outcome of opening and writing the output file when attempted, report_id
the generated uuid4, and now the formatted current time used in the default
filename. The result carries the returned record, the list of files written,
and the service state after renderer dispatch; uncaught exceptions are
Except.error. Template lookup, format parsing and get_renderer run before
the try block, so their exceptions propagate; exceptions from rendering and
saving are caught and turned into an error-status record. -/
def generate_report (templates : List (String × ReportTemplate))
    (avail : RenderingEngine → Bool)
    (render : Renderer → String → ReportFormat → Except String (List Nat))
    (writeErr : Option String) (st : ServiceState)
    (report_id now template_id : String) (output_format : FormatArg)
    (engineOpt : Option EngineArg) (filenameOpt : Option String)
    (save : Bool) (output_dir : String) :
    Except PyErr (List (String × RVal) × List (String × List Nat) × ServiceState) :=
  match dictGet templates template_id with
  | none => .error (.valueError ("Template not found: " ++ template_id))
  | some t =>
    match output_format.toFormat with
    | .error m => .error (.valueError m)
    | .ok fmt =>
      let engine := engineOpt.getD t.engine
      let filename := filenameOpt.getD (template_id ++ "_" ++ now ++ "." ++ fmt.value)
      match get_renderer_arg avail st engine with
      | .error m => .error (.valueError m)
      | .ok (renderer, st2) =>
        match render renderer template_id fmt with
        | .error m => .ok (errorRecord report_id template_id fmt engine m, [], st2)
        | .ok content =>
          if save then
            match writeErr with
            | some m => .ok (errorRecord report_id template_id fmt engine m, [], st2)
            | none =>
              .ok (successRecord report_id template_id fmt engine
                     (some (output_dir ++ "/" ++ filename)) content,
                   [(output_dir ++ "/" ++ filename, content)], st2)
          else
            .ok (successRecord report_id template_id fmt engine none content, [], st2)

/-- os.path.basename for the slash-separated paths built by the service. -/
def basename (p : String) : String :=
  (p.splitOn "/").getLastD ""

/-- An HTTP response of the report API: a JSON body or an HTTPException. -/
inductive ApiResponse where
  | ok (body : List (String × RVal))
  | err (status_code : Nat) (detail : String)
deriving DecidableEq

/-- Model of the POST /api/v1/reports handler (api/main.py lines 120-166).
The argument is the outcome of the default_service.generate_report call,
or importError when importing the report service raised. The body mirrors
the try block: an error-status result raises HTTPException(400); but that
exception is itself an Exception, so the final `except Exception` clause
catches it and re-raises with status 500. Only an ImportError reaches the
501 clause. -/
def api_generate_report
    (call : Except PyErr (List (String × RVal) × List (String × List Nat) × ServiceState)) :
    ApiResponse :=
  let body : Except PyErr (List (String × RVal)) :=
    match call with
    | .error e => .error e
    | .ok (result, _, _) =>
      if dictGet result "status" = some (.s "error") then
        .error (.httpException 400
          (match dictGet result "error" with
           | some (.s m) => m
           | _ => ""))
      else
        .ok [("report_id", (dictGet result "report_id").getD .nil),
             ("status", .s "success"),
             ("url", .s ("/api/v1/reports/"
                ++ (match dictGet result "report_id" with
                    | some (.s rid) => rid
                    | _ => "") ++ "/download")),
             ("filename", .s (basename
                (match dictGet result "file_path" with
                 | some (.s p) => p
                 | _ => ""))),
             ("generation_time_seconds",
                (dictGet result "generation_time_seconds").getD .nil)]
  match body with
  | .ok b => .ok b
  | .error (.importError m) => .err 501 ("Report generation service not available: " ++ m)
  | .error e => .err 500 ("Failed to generate report: " ++ e.message)


/-- Python s.replace("_", " ") for the single-character pattern used in
generate_metrics_report. -/
def pyReplaceUnderscore (s : String) : String :=
  ⟨s.data.map fun c => if c = '_' then ' ' else c⟩

/-- Python str.title() over the letters of the string: a letter that follows
a non-letter is upper-cased, a letter that follows a letter is lower-cased
(ASCII model of the cased characters). -/
def pyTitleChars : Bool → List Char → List Char
  | _, [] => []
  | prevCased, c :: rest =>
    if c.isAlpha then
      (if prevCased then c.toLower else c.toUpper) :: pyTitleChars true rest
    else
      c :: pyTitleChars false rest

/-- Python str.title(). -/
def pyTitle (s : String) : String :=
  ⟨pyTitleChars false s.data⟩

/-- The section and metric name transformation of generate_metrics_report
(service.py lines 282 and 290): replace underscores by spaces, then title. -/
def titledKey (k : String) : String :=
  pyTitle (pyReplaceUnderscore k)

/-- One metric of the Summary section (service.py lines 269-272): the key is
used verbatim as the name. -/
def summaryMetric (kv : String × JsonVal) : JsonVal :=
  .obj [("name", .str kv.1), ("value", kv.2), ("description", .str "")]

/-- The Summary section (service.py lines 265-273). -/
def summarySection (entries : List (String × JsonVal)) : JsonVal :=
  .obj [("title", .str "Summary"), ("description", .str "Key metrics overview"),
        ("metrics", .arr (entries.map summaryMetric))]

/-- One metric of a non-summary dict-valued section (service.py lines
288-294): the metric name goes through the title transformation. -/
def dictMetric (kv : String × JsonVal) : JsonVal :=
  .obj [("name", .str (titledKey kv.1)), ("value", kv.2), ("description", .str "")]

/-- A list item contributes to a section exactly when it is a dict carrying
both a name and a value key (service.py line 297). -/
def itemHasNameValue : JsonVal → Bool
  | .obj fields => (dictGet fields "name").isSome && (dictGet fields "value").isSome
  | _ => false

/-- The metrics of a non-summary section (service.py lines 286-298): one
metric per entry of a dict value, the items carrying name and value of a
list value (taken as they are), and nothing for any other value. -/
def sectionMetrics : JsonVal → List JsonVal
  | .obj entries => entries.map dictMetric
  | .arr items => items.filter itemHasNameValue
  | _ => []

/-- A non-summary section (service.py lines 281-301). -/
def sectionFor (k : String) (v : JsonVal) : JsonVal :=
  .obj [("title", .str (titledKey k)), ("metrics", .arr (sectionMetrics v))]

/-- The loop over the non-summary keys of metrics_data (service.py lines
277-301): the summary key is skipped with continue, and each other entry
appends exactly one section. -/
def metricsLoop : List (String × JsonVal) → List JsonVal
  | [] => []
  | (k, v) :: rest =>
    if k = "summary" then metricsLoop rest
    else sectionFor k v :: metricsLoop rest

/-- The sections list built by generate_metrics_report (service.py lines
263-301): the Summary section first when the summary key is present, then
the loop over the other keys. Accessing .items() of a non-dict summary value
raises AttributeError. -/
def build_metrics_sections (metrics_data : List (String × JsonVal)) :
    Except String (List JsonVal) :=
  match dictGet metrics_data "summary" with
  | none => .ok (metricsLoop metrics_data)
  | some (.obj entries) => .ok (summarySection entries :: metricsLoop metrics_data)
  | some _ => .error "AttributeError: items"


/-- Python truthiness of a JSON-representable value. -/
def truthy : JsonVal → Bool
  | .null => false
  | .bool b => b
  | .int i => i != 0
  | .str s => s != ""
  | .arr l => !l.isEmpty
  | .obj l => !l.isEmpty

/-- RinnaConfig._get_value_at_path (rinna_config.py lines 150-159). The
Python function returns the None object both for a missing path and for a
stored None, so the model returns null in both cases; a non-dict met before
the end of the path also gives None. -/
def getValueAtPath : JsonVal → List String → JsonVal
  | obj, [] => obj
  | v, key :: rest =>
    match v with
    | .obj entries =>
      match dictGet entries key with
      | some w => getValueAtPath w rest
      | none => .null
    | _ => .null

/-- RinnaConfig._set_value_at_path (rinna_config.py lines 161-174). An empty
path is a no-op; a missing intermediate key is created as an empty dict; a
non-dict met where a dict is needed makes the Python code raise TypeError,
modelled as none. -/
def setValueAtPath : JsonVal → List String → JsonVal → Option JsonVal
  | obj, [], _ => some obj
  | v, key :: rest, value =>
    match v with
    | .obj entries =>
      match rest with
      | [] => some (.obj (dictSet entries key value))
      | _ :: _ =>
        match setValueAtPath ((dictGet entries key).getD (.obj [])) rest value with
        | some cNew => some (.obj (dictSet entries key cNew))
        | none => none
    | _ => none

/-- The shape of the coded defaults of RinnaConfig._set_defaults: a tree of
nested dicts with the default values at the leaves. _merge_defaults recurses
along exactly this structure. -/
inductive DTree where
  | leaf (v : JsonVal)
  | node (entries : List (String × DTree))

mutual
/-- One step of RinnaConfig._merge_defaults for the value of one defaults
key (rinna_config.py lines 136-148): a dict default first forces a dict at
the path (replacing anything that is not a dict, including None for a
missing path) and then merges its entries; a leaf default is written only
when the current value at the path is falsy. -/
def mergeOne (cfg : JsonVal) (fullKey : List String) : DTree → Option JsonVal
  | .leaf v =>
    if truthy (getValueAtPath cfg fullKey) then some cfg
    else setValueAtPath cfg fullKey v
  | .node entries =>
    match (match getValueAtPath cfg fullKey with
           | .obj o => some (cfg, o)
           | _ => (setValueAtPath cfg fullKey (.obj [])).map fun c => (c, [])) with
    | some (cfg2, _) => mergeEntries cfg2 fullKey entries
    | none => none

/-- The loop of RinnaConfig._merge_defaults over the defaults items
(rinna_config.py lines 134-148). -/
def mergeEntries (cfg : JsonVal) (path : List String) :
    List (String × DTree) → Option JsonVal
  | [] => some cfg
  | (key, t) :: rest =>
    match mergeOne cfg (path ++ [key]) t with
    | some cfg2 => mergeEntries cfg2 path rest
    | none => none
end

/-- The coded defaults of RinnaConfig._set_defaults (rinna_config.py lines
78-104), parameterized by the values computed at runtime: the expanded home
directory and the version read from version.properties. -/
def codedDefaults (home version : String) : List (String × DTree) :=
  [("project", .node
     [("name", .leaf (.str "Rinna")),
      ("version", .leaf (.str version)),
      ("environment", .leaf (.str "development")),
      ("data_dir", .leaf (.str (home ++ "/.rinna/data"))),
      ("temp_dir", .leaf (.str (home ++ "/.rinna/temp"))),
      ("config_dir", .leaf (.str (home ++ "/.rinna/config")))]),
   ("python", .node
     [("diagrams", .node
       [("output_dir", .leaf (.str (home ++ "/.rinna/data/diagrams"))),
        ("lucidchart", .node
          [("api_key", .leaf (.str "")),
           ("token", .leaf (.str ""))])])])]

/-- RinnaConfig._load_config followed by _set_defaults (rinna_config.py
lines 55-104): the YAML file content when present and truthy, the empty dict
otherwise (missing or unreadable file, or a falsy parse), then the coded
defaults merged in. none models the TypeError the merge can raise on
pathological shapes. -/
def loadConfig (yaml : Option JsonVal) (home version : String) : Option JsonVal :=
  mergeEntries
    (match yaml with
     | some v => if truthy v then v else .obj []
     | none => .obj [])
    [] (codedDefaults home version)

/-- Python key.split over the dot separator, keeping empty pieces. -/
def splitDots : List Char → List String
  | [] => [""]
  | c :: rest =>
    if c = '.' then "" :: splitDots rest
    else
      match splitDots rest with
      | [] => [⟨[c]⟩]
      | s :: ss => ⟨c :: s.data⟩ :: ss

/-- The path of a configuration key (rinna_config.py line 190). -/
def splitKey (key : String) : List String :=
  splitDots key.data

/-- RinnaConfig._env_var_name (rinna_config.py lines 176-178): the RINNA_
prefixed, dot-to-underscore, upper-cased key. -/
def envVarName (key : String) : String :=
  "RINNA_" ++ ⟨(key.data.map fun c => if c = '.' then '_' else c).map Char.toUpper⟩

/-- RinnaConfig.get (rinna_config.py lines 180-193) over a loaded and merged
configuration: the environment variable when set, else the value at the key
path in the merged configuration, else the call-site default (a stored None
and a missing path are indistinguishable, both fall back to the default). -/
def RinnaConfig.get (env : String → Option String) (cfg : JsonVal)
    (key : String) (dflt : JsonVal) : JsonVal :=
  match env (envVarName key) with
  | some v => .str v
  | none =>
    match getValueAtPath cfg (splitKey key) with
    | .null => dflt
    | v => v


/-! ### Model of the Swagger YAML/JSON synchronization (sync-swagger.py).
The two convert functions are pure glue: yaml.safe_load then json.dump, and
json.load then yaml.dump(sort_keys=False). To settle the round-trip claim
the serializers and parsers of the two libraries are modelled for the
JSON-representable fragment: the JSON side at the token level (whitespace
and indentation carry no information) and the YAML side at the node level
(block style and indentation likewise), including the PyYAML resolver logic
that decides when a string must be emitted quoted so that it is not read
back as a bool, null or number. -/

/-- A lexical token of a JSON document. -/
inductive JTok where
  | lbrace
  | rbrace
  | lbrack
  | rbrack
  | colon
  | comma
  | tnull
  | tbool (b : Bool)
  | tint (i : Int)
  | tstr (s : String)
deriving DecidableEq

mutual
/-- Token stream written by json.dump for a value (indent only adds
whitespace; member order is preserved, sort_keys defaults to False). -/
def jsonDumpTokens : JsonVal → List JTok
  | .null => [.tnull]
  | .bool b => [.tbool b]
  | .int i => [.tint i]
  | .str s => [.tstr s]
  | .arr items => .lbrack :: (jsonDumpArr items ++ [.rbrack])
  | .obj ms => .lbrace :: (jsonDumpObj ms ++ [.rbrace])
/-- Comma-separated item list of an array. -/
def jsonDumpArr : List JsonVal → List JTok
  | [] => []
  | [v] => jsonDumpTokens v
  | v :: rest => jsonDumpTokens v ++ .comma :: jsonDumpArr rest
/-- Comma-separated key-colon-value members of an object. -/
def jsonDumpObj : List (String × JsonVal) → List JTok
  | [] => []
  | [(k, v)] => .tstr k :: .colon :: jsonDumpTokens v
  | (k, v) :: rest => .tstr k :: .colon :: jsonDumpTokens v ++ .comma :: jsonDumpObj rest
end

mutual
/-- Recursive-descent JSON value parser over the token stream (the model of
json.load above the lexer). The fuel decreases on every nested parse and
bounds the work; jsonParseTop supplies enough of it. -/
def jsonParseVal : Nat → List JTok → Option (JsonVal × List JTok)
  | 0, _ => none
  | _ + 1, [] => none
  | _ + 1, .tnull :: ts => some (.null, ts)
  | _ + 1, .tbool b :: ts => some (.bool b, ts)
  | _ + 1, .tint i :: ts => some (.int i, ts)
  | _ + 1, .tstr s :: ts => some (.str s, ts)
  | fuel + 1, .lbrack :: ts =>
    match jsonParseVal.items fuel ts with
    | some (items, .rbrack :: ts2) => some (.arr items, ts2)
    | _ => none
  | fuel + 1, .lbrace :: ts =>
    match jsonParseVal.members fuel ts with
    | some (ms, .rbrace :: ts2) => some (.obj ms, ts2)
    | _ => none
  | _ + 1, _ :: _ => none
/-- The possibly empty item list of an array, up to its closing bracket. -/
def jsonParseVal.items : Nat → List JTok → Option (List JsonVal × List JTok)
  | 0, _ => none
  | fuel + 1, ts =>
    if ts.head? = some .rbrack then some ([], ts)
    else
      match jsonParseVal fuel ts with
      | some (v, .comma :: ts2) =>
        match jsonParseVal.items fuel ts2 with
        | some (vs, ts3) => some (v :: vs, ts3)
        | none => none
      | some (v, ts2) => some ([v], ts2)
      | none => none
/-- The possibly empty member list of an object, up to its closing brace. -/
def jsonParseVal.members : Nat → List JTok → Option (List (String × JsonVal) × List JTok)
  | 0, _ => none
  | fuel + 1, ts =>
    if ts.head? = some .rbrace then some ([], ts)
    else
      match ts with
      | .tstr k :: .colon :: ts2 =>
        match jsonParseVal fuel ts2 with
        | some (v, .comma :: ts3) =>
          match jsonParseVal.members fuel ts3 with
          | some (ms, ts4) => some ((k, v) :: ms, ts4)
          | none => none
        | some (v, ts3) => some ([(k, v)], ts3)
        | none => none
      | _ => none
end

/-- json.load of a complete token stream: one value consuming every token. -/
def jsonParseTop (ts : List JTok) : Option JsonVal :=
  match jsonParseVal (ts.length + 1) ts with
  | some (v, []) => some v
  | _ => none

/-- Decimal digits of a natural number, least significant first. -/
def natToCharsRev (n : Nat) : List Char :=
  if h : n = 0 then []
  else Char.ofNat (48 + n % 10) :: natToCharsRev (n / 10)
termination_by n
decreasing_by exact Nat.div_lt_self (Nat.pos_of_ne_zero h) (by norm_num)

/-- Decimal digits of a natural number as written by Python str. -/
def natReprChars (n : Nat) : List Char :=
  if n = 0 then ['0'] else (natToCharsRev n).reverse

/-- Python str(int). -/
def intRepr (i : Int) : String :=
  if i < 0 then ⟨'-' :: natReprChars i.natAbs⟩ else ⟨natReprChars i.natAbs⟩

/-- Value of one decimal digit character. -/
def digitVal (c : Char) : Option Nat :=
  if '0' ≤ c ∧ c ≤ '9' then some (c.toNat - 48) else none

/-- Accumulating decimal parser over the remaining digit characters. -/
def parseDigitsAux : Nat → List Char → Option Nat
  | acc, [] => some acc
  | acc, c :: rest =>
    match digitVal c with
    | some d => parseDigitsAux (acc * 10 + d) rest
    | none => none

/-- Parse a nonempty all-digit character list as a natural number. -/
def parseDigits : List Char → Option Nat
  | [] => none
  | c :: rest =>
    match digitVal c with
    | some d => parseDigitsAux d rest
    | none => none

/-- The decimal integer form recognized by the YAML resolver, restricted to
an optional sign followed by decimal digits (the canonical texts produced
when dumping; base-prefixed and sexagesimal forms of the YAML 1.1 resolver
are not modelled, which can only make this resolver classify fewer strings
as integers, and the same resolver is used when dumping and loading). -/
def parseIntText : List Char → Option Int
  | [] => none
  | c :: rest =>
    if c = '-' then (parseDigits rest).map fun n => -(n : Int)
    else if c = '+' then (parseDigits rest).map fun n => (n : Int)
    else (parseDigits (c :: rest)).map fun n => (n : Int)

/-- Approximation of the YAML float resolver: an optional sign, digits with
exactly one decimal point among them and at least one digit. It decides only
whether a plain string would be read back as a float, making the dumper
quote it; the same predicate is used on both sides of a round trip. -/
def isFloatText (cs : List Char) : Bool :=
  let body := match cs with
    | '-' :: rest => rest
    | '+' :: rest => rest
    | rest => rest
  body.all (fun c => c = '.' || (digitVal c).isSome) &&
    (body.filter fun c => c = '.').length = 1 &&
    (body.any fun c => (digitVal c).isSome)

/-- The plain scalars the YAML 1.1 resolver reads as null. -/
def nullWords : List String := ["", "~", "null", "Null", "NULL"]

/-- The plain scalars the YAML 1.1 resolver reads as true. -/
def trueWords : List String :=
  ["yes", "Yes", "YES", "true", "True", "TRUE", "on", "On", "ON"]

/-- The plain scalars the YAML 1.1 resolver reads as false. -/
def falseWords : List String :=
  ["no", "No", "NO", "false", "False", "FALSE", "off", "Off", "OFF"]

/-- Tag a plain scalar resolves to, with the constructed value for the
JSON-representable tags. Floats (and other non-JSON tags such as
timestamps, approximated here by the float class) are outside the modelled
fragment; they only force quoting when dumping. -/
inductive YTag where
  | tnull
  | tbool (b : Bool)
  | tint (i : Int)
  | tfloat
  | tstr
deriving DecidableEq

/-- Model of the PyYAML resolver on a plain scalar. -/
def resolveScalar (s : String) : YTag :=
  if s ∈ nullWords then .tnull
  else if s ∈ trueWords then .tbool true
  else if s ∈ falseWords then .tbool false
  else
    match parseIntText s.data with
    | some i => .tint i
    | none => if isFloatText s.data then .tfloat else .tstr

/-- Scalar style chosen by the emitter: plain, or quoted when a plain
rendering would resolve to a different tag. -/
inductive YStyle where
  | plain
  | quoted
deriving DecidableEq

/-- A composed YAML node as written and read by PyYAML for the
JSON-representable fragment: scalars carrying their text and style, block
sequences and block mappings (indentation carries no information at this
level). -/
inductive YNode where
  | scalar (text : String) (style : YStyle)
  | seq (items : List YNode)
  | map (pairs : List (YNode × YNode))

/-- The style yaml.dump gives a string scalar: plain exactly when the
resolver reads the text back as a string, quoted otherwise (this is how the
emitter keeps strings like yes, null or 123 from changing type). -/
def strStyle (s : String) : YStyle :=
  if resolveScalar s = .tstr then .plain else .quoted

mutual
/-- Node written by yaml.dump(sort_keys=False) for a JSON-representable
value. -/
def yamlDump : JsonVal → YNode
  | .null => .scalar "null" .plain
  | .bool true => .scalar "true" .plain
  | .bool false => .scalar "false" .plain
  | .int i => .scalar (intRepr i) .plain
  | .str s => .scalar s (strStyle s)
  | .arr items => .seq (yamlDumpList items)
  | .obj ms => .map (yamlDumpPairs ms)
/-- Sequence items. -/
def yamlDumpList : List JsonVal → List YNode
  | [] => []
  | v :: rest => yamlDump v :: yamlDumpList rest
/-- Mapping pairs; string keys get the same scalar treatment as string
values. -/
def yamlDumpPairs : List (String × JsonVal) → List (YNode × YNode)
  | [] => []
  | (k, v) :: rest => (.scalar k (strStyle k), yamlDump v) :: yamlDumpPairs rest
end

/-- Constructing one scalar when loading: a quoted scalar is always a
string; a plain scalar goes through the resolver. A float (outside the
modelled fragment) gives none. -/
def constructScalar (text : String) : YStyle → Option JsonVal
  | .quoted => some (.str text)
  | .plain =>
    match resolveScalar text with
    | .tnull => some .null
    | .tbool b => some (.bool b)
    | .tint i => some (.int i)
    | .tstr => some (.str text)
    | .tfloat => none

mutual
/-- Model of yaml.safe_load above the scanner: construct the value of a
composed node. Mapping keys outside the JSON-representable string keys give
none. -/
def yamlConstruct : YNode → Option JsonVal
  | .scalar t st => constructScalar t st
  | .seq items =>
    match yamlConstructList items with
    | some vs => some (.arr vs)
    | none => none
  | .map pairs =>
    match yamlConstructPairs pairs with
    | some ms => some (.obj ms)
    | none => none
/-- Sequence items. -/
def yamlConstructList : List YNode → Option (List JsonVal)
  | [] => some []
  | n :: rest =>
    match yamlConstruct n, yamlConstructList rest with
    | some v, some vs => some (v :: vs)
    | _, _ => none
/-- Mapping pairs with string keys. -/
def yamlConstructPairs : List (YNode × YNode) → Option (List (String × JsonVal))
  | [] => some []
  | (kn, vn) :: rest =>
    match yamlConstruct kn, yamlConstruct vn, yamlConstructPairs rest with
    | some (.str k), some v, some ms => some ((k, v) :: ms)
    | _, _, _ => none
end

/-- convert_yaml_to_json (sync-swagger.py lines 16-38) at document level:
yaml.safe_load of the YAML form, then json.dump of the loaded value, with
no transformation in between. -/
def convert_yaml_to_json (doc : YNode) : Option (List JTok) :=
  (yamlConstruct doc).map jsonDumpTokens

/-- convert_json_to_yaml (sync-swagger.py lines 41-63) at document level:
json.load of the JSON form, then yaml.dump of the loaded value, with no
transformation in between. -/
def convert_json_to_yaml (ts : List JTok) : Option YNode :=
  (jsonParseTop ts).map yamlDump

/-! ## General lemmas and claim theorems -/

/-- Induction principle for JsonVal that descends through the nested lists. -/
theorem JsonVal.myInd (P : JsonVal → Prop)
    (h0 : P .null) (h1 : ∀ b, P (.bool b)) (h2 : ∀ i, P (.int i))
    (h3 : ∀ s, P (.str s))
    (h4 : ∀ l, (∀ x ∈ l, P x) → P (.arr l))
    (h5 : ∀ l, (∀ p ∈ l, P (Prod.snd p)) → P (.obj l)) : ∀ v, P v
  | .null => h0
  | .bool b => h1 b
  | .int i => h2 i
  | .str s => h3 s
  | .arr l => h4 l (fun x hx => JsonVal.myInd P h0 h1 h2 h3 h4 h5 x)
  | .obj l => h5 l (fun p hp => JsonVal.myInd P h0 h1 h2 h3 h4 h5 p.2)
termination_by v => sizeOf v
decreasing_by
  · have := List.sizeOf_lt_of_mem hx
    simp only [JsonVal.arr.sizeOf_spec]
    omega
  · have h := List.sizeOf_lt_of_mem hp
    have h2 : sizeOf p.2 < sizeOf p := by
      obtain ⟨a, b⟩ := p
      simp
    simp only [JsonVal.obj.sizeOf_spec]
    omega

theorem defaultKeyOk_init (d : RenderingEngine) :
    DefaultKeyOk (ReportService.init d) := rfl

theorem dictGet_dictSet {α β : Type} [DecidableEq α] (d : List (α × β))
    (k k2 : α) (v : β) :
    dictGet (dictSet d k v) k2 = if k2 = k then some v else dictGet d k2 := by
  induction d with
  | nil => simp [dictSet, dictGet]
  | cons p rest ih =>
    obtain ⟨k0, w⟩ := p
    by_cases h0 : k = k0
    · subst h0
      by_cases h2 : k2 = k <;> simp [dictSet, dictGet, h2]
    · by_cases h2 : k2 = k0
      · subst h2
        simp [dictSet, dictGet, h0, Ne.symm h0]
      · simp [dictSet, dictGet, h0, h2, ih]

theorem defaultKeyOk_get_renderer (avail : RenderingEngine → Bool)
    (st st' : ServiceState) (e : RenderingEngine) (r : Renderer)
    (hok : DefaultKeyOk st) (h : get_renderer avail st e = .ok (r, st')) :
    DefaultKeyOk st' := by
  unfold DefaultKeyOk at hok ⊢
  rcases hlo : dictGet st.renderers e with _ | r0
  · by_cases hav : avail e
    · simp [get_renderer, create_renderer, hlo, hav] at h
      rw [← h.2]
      simp only [dictGet_dictSet]
      by_cases hde : st.default_engine = e
      · simp [hde, ← h.1]
      · simp only [hde, if_false]
        exact hok
    · by_cases heq : e = st.default_engine
      · subst heq
        simp [get_renderer, create_renderer, hlo, hav] at h
      · rcases hld : dictGet st.renderers st.default_engine with _ | rd
        · by_cases hav2 : avail st.default_engine
          · simp [get_renderer, create_renderer, hlo, hav, heq, hld, hav2] at h
            rw [← h.2]
            simp only [dictGet_dictSet]
            rw [if_neg (fun hc => heq hc.symm), hld]
            rfl
          · simp [get_renderer, create_renderer, hlo, hav, heq, hld, hav2] at h
        · simp [get_renderer, create_renderer, hlo, hav, heq, hld] at h
          rw [← h.2]
          simp only [dictGet_dictSet]
          rw [if_neg (fun hc => heq hc.symm), hld]
          rw [hld] at hok
          exact hok
  · simp [get_renderer, hlo] at h
    rw [← h.2]
    exact hok

theorem get_renderer_caches (avail : RenderingEngine → Bool)
    (st st' : ServiceState) (e : RenderingEngine) (r : Renderer)
    (h : get_renderer avail st e = .ok (r, st')) :
    dictGet st'.renderers e = some r := by
  rcases hlo : dictGet st.renderers e with _ | r0
  · by_cases hav : avail e
    · simp [get_renderer, create_renderer, hlo, hav] at h
      rw [← h.2, ← h.1]
      simp [dictGet_dictSet]
    · by_cases heq : e = st.default_engine
      · subst heq
        simp [get_renderer, create_renderer, hlo, hav] at h
      · rcases hld : dictGet st.renderers st.default_engine with _ | rd
        · by_cases hav2 : avail st.default_engine
          · simp [get_renderer, create_renderer, hlo, hav, heq, hld, hav2] at h
            rw [← h.2, ← h.1]
            simp [dictGet_dictSet]
          · simp [get_renderer, create_renderer, hlo, hav, heq, hld, hav2] at h
        · simp [get_renderer, create_renderer, hlo, hav, heq, hld] at h
          rw [← h.2, ← h.1]
          simp [dictGet_dictSet]
  · simp [get_renderer, hlo] at h
    rw [← h.2, ← h.1]
    exact hlo

/-- C8: the ReportService keeps at most one renderer instance per engine key:
the cache starts empty, a successful get_renderer call leaves the returned
instance cached under the requested engine, and a later get_renderer call
with the same engine returns that same instance with the state unchanged
(in particular the construction counter does not move, so no new renderer
is constructed). -/
theorem C8_renderer_cache (avail : RenderingEngine → Bool)
    (d : RenderingEngine) (st st' : ServiceState) (e : RenderingEngine)
    (r : Renderer) (h : get_renderer avail st e = .ok (r, st')) :
    (ReportService.init d).renderers = [] ∧
    dictGet st'.renderers e = some r ∧
    get_renderer avail st' e = .ok (r, st') := by
  refine ⟨rfl, get_renderer_caches avail st st' e r h, ?_⟩
  unfold get_renderer
  rw [get_renderer_caches avail st st' e r h]

theorem C8_renderer_cache_witness :
    get_renderer (fun _ => true)
        ⟨.weasyprint, [(.reportlab, ⟨.reportlab, 0⟩)], 1⟩ .reportlab =
      .ok (⟨.reportlab, 0⟩, ⟨.weasyprint, [(.reportlab, ⟨.reportlab, 0⟩)], 1⟩) :=
  (C8_renderer_cache (fun _ => true) .weasyprint (ReportService.init .weasyprint)
    ⟨.weasyprint, [(.reportlab, ⟨.reportlab, 0⟩)], 1⟩ .reportlab
    ⟨.reportlab, 0⟩ rfl).2.2

/-- C1 counterexample: with every rendering library unavailable, requesting
the non-default reportlab engine makes get_renderer raise the ValueError from
constructing the default renderer instead of returning a fallback renderer;
and a ValueError escaping the service reaches the HTTP layer as a 500 error,
not a 501-class one. -/
theorem C1_counterexample :
    get_renderer (fun _ => false) (ReportService.init .weasyprint) .reportlab =
      .error (unavailableMessage .weasyprint) ∧
    api_generate_report (.error (.valueError (unavailableMessage .weasyprint))) =
      .err 500 ("Failed to generate report: " ++ unavailableMessage .weasyprint) ∧
    (500 : Nat) ≠ 501 :=
  ⟨rfl, rfl, by decide⟩

/-- C1 (amended): when construction of the requested engine's renderer fails
and the requested engine differs from the default, get_renderer returns a
renderer for the default engine provided the one can be obtained (already
cached, or its library available); when the requested engine is the default,
or the default renderer also fails to construct, the ValueError is raised,
and a ValueError escaping generate_report is reported to HTTP clients as a
500 error. -/
theorem C1_fallback_to_default (avail : RenderingEngine → Bool)
    (st : ServiceState) (e : RenderingEngine) (hok : DefaultKeyOk st)
    (hmiss : dictGet st.renderers e = none) (hfail : avail e = false) :
    (e ≠ st.default_engine → avail st.default_engine = true →
      dictGet st.renderers st.default_engine = none →
      get_renderer avail st e =
        .ok (⟨st.default_engine, st.fresh⟩,
             ⟨st.default_engine, dictSet st.renderers e ⟨st.default_engine, st.fresh⟩,
              st.fresh + 1⟩)) ∧
    (∀ rd, e ≠ st.default_engine →
      dictGet st.renderers st.default_engine = some rd →
      rd.engine = st.default_engine ∧
      get_renderer avail st e =
        .ok (rd, ⟨st.default_engine, dictSet st.renderers e rd, st.fresh⟩)) ∧
    (e = st.default_engine →
      get_renderer avail st e = .error (unavailableMessage e)) ∧
    (e ≠ st.default_engine → avail st.default_engine = false →
      dictGet st.renderers st.default_engine = none →
      get_renderer avail st e = .error (unavailableMessage st.default_engine)) ∧
    (∀ m, api_generate_report (.error (.valueError m)) =
      .err 500 ("Failed to generate report: " ++ m)) := by
  refine ⟨?_, ?_, ?_, ?_, fun m => rfl⟩
  · intro hne hav2 hld
    simp [get_renderer, create_renderer, hmiss, hfail, hne, hld, hav2]
  · intro rd hne hld
    constructor
    · unfold DefaultKeyOk at hok
      rw [hld] at hok
      simpa using hok
    · simp [get_renderer, create_renderer, hmiss, hfail, hne, hld]
  · intro heq
    subst heq
    simp [get_renderer, create_renderer, hmiss, hfail]
  · intro hne hav2 hld
    simp [get_renderer, create_renderer, hmiss, hfail, hne, hld, hav2]

theorem C1_fallback_to_default_witness :
    get_renderer (fun x => x == RenderingEngine.weasyprint)
        (ReportService.init .weasyprint) .reportlab =
      .ok (⟨.weasyprint, 0⟩, ⟨.weasyprint, [(.reportlab, ⟨.weasyprint, 0⟩)], 1⟩) :=
  (C1_fallback_to_default (fun x => x == RenderingEngine.weasyprint)
    (ReportService.init .weasyprint) .reportlab rfl rfl rfl).1
    (by decide) rfl rfl

/-- C2: with the template found and a renderer obtained, every exception
raised by the renderer's render method, and every exception raised while
saving the output, is caught inside generate_report, which returns (rather
than raises) an error-status record carrying the exception message, the
template id, the format and the engine. -/
theorem C2_render_errors_become_records
    (templates : List (String × ReportTemplate)) (avail : RenderingEngine → Bool)
    (render : Renderer → String → ReportFormat → Except String (List Nat))
    (writeErr : Option String) (st : ServiceState)
    (report_id now template_id : String) (output_format : FormatArg)
    (engineOpt : Option EngineArg) (filenameOpt : Option String)
    (save : Bool) (output_dir : String)
    (t : ReportTemplate) (ht : dictGet templates template_id = some t)
    (fmt : ReportFormat) (hf : output_format.toFormat = .ok fmt)
    (r : Renderer) (st2 : ServiceState)
    (hr : get_renderer_arg avail st (engineOpt.getD t.engine) = .ok (r, st2)) :
    (∀ m, render r template_id fmt = .error m →
      generate_report templates avail render writeErr st report_id now template_id
          output_format engineOpt filenameOpt save output_dir =
        .ok (errorRecord report_id template_id fmt (engineOpt.getD t.engine) m,
             [], st2)) ∧
    (∀ content m, render r template_id fmt = .ok content → save = true →
      writeErr = some m →
      generate_report templates avail render writeErr st report_id now template_id
          output_format engineOpt filenameOpt save output_dir =
        .ok (errorRecord report_id template_id fmt (engineOpt.getD t.engine) m,
             [], st2)) ∧
    (∀ m, dictGet (errorRecord report_id template_id fmt (engineOpt.getD t.engine) m)
          "status" = some (.s "error") ∧
      dictGet (errorRecord report_id template_id fmt (engineOpt.getD t.engine) m)
          "error" = some (.s m) ∧
      dictGet (errorRecord report_id template_id fmt (engineOpt.getD t.engine) m)
          "template_id" = some (.s template_id) ∧
      dictGet (errorRecord report_id template_id fmt (engineOpt.getD t.engine) m)
          "format" = some (.s fmt.value) ∧
      dictGet (errorRecord report_id template_id fmt (engineOpt.getD t.engine) m)
          "engine" = some (.s (engineOpt.getD t.engine).recordValue)) := by
  refine ⟨?_, ?_, ?_⟩
  · intro m hm
    simp [generate_report, ht, hf, hr, hm]
  · intro content m hm hsave hw
    simp [generate_report, ht, hf, hr, hm, hsave, hw]
  · intro m
    simp [errorRecord, dictGet]

theorem C2_render_errors_become_records_witness :
    generate_report
        [("sample", ⟨"sample", "/t/sample.html", "Sample Template", "", .enum .weasyprint, []⟩)]
        (fun _ => true) (fun _ _ _ => .error "boom") none
        (ReportService.init .weasyprint) "rid1" "20250101" "sample"
        (.fmt .pdf) none none true "/tmp/rinna_reports" =
      .ok (errorRecord "rid1" "sample" .pdf (.enum .weasyprint) "boom", [],
           ⟨.weasyprint, [(.weasyprint, ⟨.weasyprint, 0⟩)], 1⟩) :=
  (C2_render_errors_become_records
    [("sample", ⟨"sample", "/t/sample.html", "Sample Template", "", .enum .weasyprint, []⟩)]
    (fun _ => true) (fun _ _ _ => .error "boom") none
    (ReportService.init .weasyprint) "rid1" "20250101" "sample"
    (.fmt .pdf) none none true "/tmp/rinna_reports"
    ⟨"sample", "/t/sample.html", "Sample Template", "", .enum .weasyprint, []⟩ rfl
    .pdf rfl ⟨.weasyprint, 0⟩ ⟨.weasyprint, [(.weasyprint, ⟨.weasyprint, 0⟩)], 1⟩
    rfl).1 "boom" rfl

/-- C3 counterexample: an HTTP report-generation request for a template id
that is not in the catalog is answered with status 500, not a 400-class
status: the ValueError raised by generate_report is caught by the final
except-Exception clause of the handler. -/
theorem C3_counterexample :
    api_generate_report
        (generate_report [] (fun _ => true) (fun _ _ _ => .ok []) none
          (ReportService.init .weasyprint) "rid" "20250101" "metrics_default"
          (.str "pdf") none none true "/tmp/rinna_reports") =
      .err 500 ("Failed to generate report: "
        ++ ("Template not found: " ++ "metrics_default")) ∧
    ¬(400 ≤ (500 : Nat) ∧ (500 : Nat) ≤ 499) :=
  ⟨rfl, by decide⟩

/-- C3 (amended): every HTTP report-generation request whose template id is
not in the catalog is answered with a 500 error whose detail wraps the
Template-not-found message. -/
theorem C3_missing_template_500
    (templates : List (String × ReportTemplate)) (avail : RenderingEngine → Bool)
    (render : Renderer → String → ReportFormat → Except String (List Nat))
    (writeErr : Option String) (st : ServiceState)
    (report_id now template_id : String) (output_format : FormatArg)
    (engineOpt : Option EngineArg) (filenameOpt : Option String)
    (save : Bool) (output_dir : String)
    (h : dictGet templates template_id = none) :
    api_generate_report
        (generate_report templates avail render writeErr st report_id now
          template_id output_format engineOpt filenameOpt save output_dir) =
      .err 500 ("Failed to generate report: "
        ++ ("Template not found: " ++ template_id)) := by
  unfold generate_report
  rw [h]
  rfl

theorem C3_missing_template_500_witness :
    api_generate_report
        (generate_report [] (fun _ => true) (fun _ _ _ => .ok []) none
          (ReportService.init .weasyprint) "rid2" "20250102" "nope"
          (.fmt .pdf) none none true "/tmp/rinna_reports") =
      .err 500 ("Failed to generate report: "
        ++ ("Template not found: " ++ "nope")) :=
  C3_missing_template_500 [] (fun _ => true) (fun _ _ _ => .ok []) none
    (ReportService.init .weasyprint) "rid2" "20250102" "nope"
    (.fmt .pdf) none none true "/tmp/rinna_reports" rfl

/-- C9: when the renderer raises, generate_report writes no output file and
the error-status record carries neither a file_path nor a size_bytes entry;
when rendering succeeds the success-status record carries both, with
size_bytes equal to the byte length of the rendered content. -/
theorem C9_output_only_on_success
    (templates : List (String × ReportTemplate)) (avail : RenderingEngine → Bool)
    (render : Renderer → String → ReportFormat → Except String (List Nat))
    (writeErr : Option String) (st : ServiceState)
    (report_id now template_id : String) (output_format : FormatArg)
    (engineOpt : Option EngineArg) (filenameOpt : Option String)
    (save : Bool) (output_dir : String)
    (t : ReportTemplate) (ht : dictGet templates template_id = some t)
    (fmt : ReportFormat) (hf : output_format.toFormat = .ok fmt)
    (r : Renderer) (st2 : ServiceState)
    (hr : get_renderer_arg avail st (engineOpt.getD t.engine) = .ok (r, st2)) :
    (∀ m, render r template_id fmt = .error m →
      generate_report templates avail render writeErr st report_id now template_id
          output_format engineOpt filenameOpt save output_dir =
        .ok (errorRecord report_id template_id fmt (engineOpt.getD t.engine) m,
             [], st2) ∧
      dictGet (errorRecord report_id template_id fmt (engineOpt.getD t.engine) m)
          "file_path" = none ∧
      dictGet (errorRecord report_id template_id fmt (engineOpt.getD t.engine) m)
          "size_bytes" = none) ∧
    (∀ content, render r template_id fmt = .ok content →
      (save = true → writeErr = none →
        generate_report templates avail render writeErr st report_id now template_id
            output_format engineOpt filenameOpt save output_dir =
          .ok (successRecord report_id template_id fmt (engineOpt.getD t.engine)
                 (some (output_dir ++ "/"
                   ++ filenameOpt.getD (template_id ++ "_" ++ now ++ "." ++ fmt.value)))
                 content,
               [(output_dir ++ "/"
                   ++ filenameOpt.getD (template_id ++ "_" ++ now ++ "." ++ fmt.value),
                 content)], st2)) ∧
      (save = false →
        generate_report templates avail render writeErr st report_id now template_id
            output_format engineOpt filenameOpt save output_dir =
          .ok (successRecord report_id template_id fmt (engineOpt.getD t.engine)
                 none content, [], st2)) ∧
      (∀ p, dictGet (successRecord report_id template_id fmt (engineOpt.getD t.engine)
              p content) "file_path" =
            some (match p with | some q => .s q | none => .nil) ∧
        dictGet (successRecord report_id template_id fmt (engineOpt.getD t.engine)
              p content) "size_bytes" = some (.n content.length) ∧
        dictGet (successRecord report_id template_id fmt (engineOpt.getD t.engine)
              p content) "status" = some (.s "success"))) := by
  refine ⟨?_, ?_⟩
  · intro m hm
    refine ⟨?_, ?_, ?_⟩
    · simp [generate_report, ht, hf, hr, hm]
    · simp [errorRecord, dictGet]
    · simp [errorRecord, dictGet]
  · intro content hc
    refine ⟨?_, ?_, ?_⟩
    · intro hsave hw
      simp [generate_report, ht, hf, hr, hc, hsave, hw]
    · intro hsave
      simp [generate_report, ht, hf, hr, hc, hsave]
    · intro p
      refine ⟨?_, ?_, ?_⟩ <;> simp [successRecord, dictGet]

theorem C9_output_only_on_success_witness :
    generate_report
        [("sample", ⟨"sample", "/t/sample.html", "Sample Template", "", .enum .weasyprint, []⟩)]
        (fun _ => true) (fun _ _ _ => .error "render failed") none
        (ReportService.init .weasyprint) "rid3" "20250103" "sample"
        (.fmt .pdf) none none true "/tmp/rinna_reports" =
      .ok (errorRecord "rid3" "sample" .pdf (.enum .weasyprint) "render failed", [],
           ⟨.weasyprint, [(.weasyprint, ⟨.weasyprint, 0⟩)], 1⟩) ∧
    dictGet (errorRecord "rid3" "sample" .pdf (.enum .weasyprint) "render failed")
        "file_path" = none ∧
    dictGet (errorRecord "rid3" "sample" .pdf (.enum .weasyprint) "render failed")
        "size_bytes" = none :=
  (C9_output_only_on_success
    [("sample", ⟨"sample", "/t/sample.html", "Sample Template", "", .enum .weasyprint, []⟩)]
    (fun _ => true) (fun _ _ _ => .error "render failed") none
    (ReportService.init .weasyprint) "rid3" "20250103" "sample"
    (.fmt .pdf) none none true "/tmp/rinna_reports"
    ⟨"sample", "/t/sample.html", "Sample Template", "", .enum .weasyprint, []⟩ rfl
    .pdf rfl ⟨.weasyprint, 0⟩ ⟨.weasyprint, [(.weasyprint, ⟨.weasyprint, 0⟩)], 1⟩
    rfl).1 "render failed" rfl

theorem mem_keys_dictSet {α β : Type} [DecidableEq α] (d : List (α × β))
    (k : α) (v : β) (a : α) :
    a ∈ (dictSet d k v).map Prod.fst ↔ a ∈ d.map Prod.fst ∨ a = k := by
  induction d with
  | nil => simp [dictSet]
  | cons p rest ih =>
    obtain ⟨k0, w⟩ := p
    by_cases h0 : k = k0
    · subst h0
      simp [dictSet]
      tauto
    · simp [dictSet, h0, ih]
      tauto

theorem keysNodup_dictSet {α β : Type} [DecidableEq α] (d : List (α × β))
    (k : α) (v : β) (h : keysNodup d) : keysNodup (dictSet d k v) := by
  induction d with
  | nil => simp [dictSet, keysNodup]
  | cons p rest ih =>
    obtain ⟨k0, w⟩ := p
    unfold keysNodup at h ⊢
    simp only [List.map_cons, List.nodup_cons] at h
    by_cases h0 : k = k0
    · subst h0
      simpa [dictSet] using h
    · simp only [dictSet, if_neg h0, List.map_cons, List.nodup_cons]
      constructor
      · rw [mem_keys_dictSet]
        rintro (hc | hc)
        · exact h.1 hc
        · exact h0 hc.symm
      · exact ih h.2

theorem keysMatch_dictSet (d : List (String × ReportTemplate))
    (t : ReportTemplate) (h : TemplateKeysMatch d) :
    TemplateKeysMatch (dictSet d t.template_id t) := by
  induction d with
  | nil =>
    intro p hp
    simp [dictSet] at hp
    simp [hp]
  | cons q rest ih =>
    obtain ⟨k0, w⟩ := q
    have hrest : TemplateKeysMatch rest := fun p hp => h p (List.mem_cons_of_mem _ hp)
    by_cases h0 : t.template_id = k0
    · intro p hp
      rw [dictSet, if_pos h0] at hp
      rcases List.mem_cons.1 hp with hc | hc
      · rw [hc]
      · exact h p (List.mem_cons_of_mem _ hc)
    · intro p hp
      rw [dictSet, if_neg h0] at hp
      rcases List.mem_cons.1 hp with hc | hc
      · rw [hc]
        exact h (k0, w) (List.mem_cons_self _ _)
      · exact ih hrest p hc

theorem load_entries_invariants (dir : String) (entries : List CatalogEntry) :
    ∀ acc, keysNodup acc → TemplateKeysMatch acc →
      keysNodup (load_entries dir entries acc) ∧
      TemplateKeysMatch (load_entries dir entries acc) := by
  induction entries with
  | nil => intro acc h1 h2; exact ⟨h1, h2⟩
  | cons e rest ih =>
    intro acc h1 h2
    rcases he : e.id with _ | tid
    · simp only [load_entries, he]
      exact ih acc h1 h2
    · by_cases ht : tid = ""
      · simp only [load_entries, he, if_pos ht]
        exact ih acc h1 h2
      · simp only [load_entries, he, if_neg ht]
        refine ih _ (keysNodup_dictSet _ _ _ h1) ?_
        have := keysMatch_dictSet acc (templateOfEntry dir e tid) h2
        exact this

/-- C6: a catalog entry missing a usable id (absent or empty) is skipped and
the remaining entries are still loaded, so loading a catalog is the same as
loading the catalog with every such entry removed; and an unreadable or
malformed catalog (as well as a missing one) leaves the templates dict empty
instead of raising, so the TemplateManager constructor returns normally. -/
theorem C6_invalid_catalog_not_fatal (dir : String)
    (entries : List CatalogEntry) (acc : List (String × ReportTemplate))
    (m : String) :
    load_entries dir entries acc = load_entries dir (entries.filter entryIdOk) acc ∧
    (TemplateManager.init dir (some (.error m))).templates = [] ∧
    (TemplateManager.init dir none).templates = [] := by
  refine ⟨?_, rfl, rfl⟩
  induction entries generalizing acc with
  | nil => rfl
  | cons e rest ih =>
    rcases he : e.id with _ | tid
    · have hek : entryIdOk e = false := by simp [entryIdOk, he]
      simp only [load_entries, he, List.filter_cons, hek, Bool.false_eq_true, if_false]
      exact ih acc
    · by_cases ht : tid = ""
      · have hek : entryIdOk e = false := by simp [entryIdOk, he, ht]
        simp only [load_entries, he, if_pos ht, List.filter_cons, hek,
          Bool.false_eq_true, if_false]
        exact ih acc
      · have hek : entryIdOk e = true := by simp [entryIdOk, he, ht]
        simp only [load_entries, he, if_neg ht, List.filter_cons, hek, if_true]
        exact ih _

/-- C10: the TemplateManager keeps at most one template per identifier:
adding a template whose id is already present replaces it in place (without
raising), get_template then returns the newly added template, the keys stay
pairwise distinct, and list_templates never lists two templates with the
same template id; the key invariants hold for every freshly constructed
manager. -/
theorem C10_add_template_replaces (st : TemplateManagerState)
    (t : ReportTemplate) (h1 : keysNodup st.templates)
    (h2 : TemplateKeysMatch st.templates) :
    get_template (add_template st t) t.template_id = some t ∧
    keysNodup (add_template st t).templates ∧
    TemplateKeysMatch (add_template st t).templates ∧
    ((list_templates (add_template st t)).map ReportTemplate.template_id).Nodup ∧
    (∀ dir catalog, keysNodup (TemplateManager.init dir catalog).templates ∧
      TemplateKeysMatch (TemplateManager.init dir catalog).templates) := by
  have hget : get_template (add_template st t) t.template_id = some t := by
    unfold get_template add_template
    simp [dictGet_dictSet]
  have hnd : keysNodup (add_template st t).templates :=
    keysNodup_dictSet _ _ _ h1
  have hkm : TemplateKeysMatch (add_template st t).templates :=
    keysMatch_dictSet _ _ h2
  refine ⟨hget, hnd, hkm, ?_, ?_⟩
  · have heq : (list_templates (add_template st t)).map ReportTemplate.template_id =
        (add_template st t).templates.map Prod.fst := by
      unfold list_templates
      rw [List.map_map]
      exact List.map_congr_left fun p hp => hkm p hp
    rw [heq]
    exact hnd
  · intro dir catalog
    rcases catalog with _ | c
    · constructor <;> first
        | exact List.nodup_nil
        | exact fun p hp => absurd hp (List.not_mem_nil p)
    · rcases c with m2 | entries
      · constructor <;> first
          | exact List.nodup_nil
          | exact fun p hp => absurd hp (List.not_mem_nil p)
      · exact load_entries_invariants dir entries []
          List.nodup_nil (fun p hp => absurd hp (List.not_mem_nil p))

theorem C10_add_template_replaces_witness :
    get_template
        (add_template (TemplateManager.init "/t" none)
          ⟨"sample", "/t/sample.html", "Sample Template",
           "A sample template for testing", .enum .weasyprint, []⟩)
        "sample" =
      some ⟨"sample", "/t/sample.html", "Sample Template",
            "A sample template for testing", .enum .weasyprint, []⟩ :=
  (C10_add_template_replaces (TemplateManager.init "/t" none)
    ⟨"sample", "/t/sample.html", "Sample Template",
     "A sample template for testing", .enum .weasyprint, []⟩
    List.nodup_nil (fun p hp => absurd hp (List.not_mem_nil p))).1

theorem metricsLoop_filter_map (md : List (String × JsonVal)) :
    metricsLoop md =
      (md.filter fun p => p.1 != "summary").map fun p => sectionFor p.1 p.2 := by
  induction md with
  | nil => rfl
  | cons p rest ih =>
    obtain ⟨k, v⟩ := p
    by_cases hk : k = "summary"
    · simp [metricsLoop, hk, ih]
    · simp [metricsLoop, hk, ih]

/-- C4: the sections of a metrics report consist of exactly one Summary
section placed first whenever the summary key is present (one metric per
summary entry), followed by exactly one section per other top-level key of
metrics_data in order; a dict value contributes one metric per entry and a
list value contributes exactly its items that carry both a name and a
value. -/
theorem C4_metrics_sections (md : List (String × JsonVal)) (ss : List JsonVal)
    (h : build_metrics_sections md = .ok ss) :
    (∀ entries, dictGet md "summary" = some (.obj entries) →
      ss = summarySection entries ::
        ((md.filter fun p => p.1 != "summary").map fun p => sectionFor p.1 p.2)) ∧
    (dictGet md "summary" = none →
      ss = (md.filter fun p => p.1 != "summary").map fun p => sectionFor p.1 p.2) ∧
    (∀ entries, sectionMetrics (.obj entries) = entries.map dictMetric) ∧
    (∀ items, sectionMetrics (.arr items) = items.filter itemHasNameValue) := by
  refine ⟨?_, ?_, fun _ => rfl, fun _ => rfl⟩
  · intro entries hsum
    rw [build_metrics_sections, hsum] at h
    simp only [Except.ok.injEq] at h
    rw [← h, metricsLoop_filter_map]
  · intro hsum
    rw [build_metrics_sections, hsum] at h
    simp only [Except.ok.injEq] at h
    rw [← h, metricsLoop_filter_map]

theorem C4_metrics_sections_witness :
    build_metrics_sections
        [("summary", .obj [("Total Work Items", .int 127)]),
         ("priority_distribution", .obj [("high", .int 18), ("medium", .int 65)]),
         ("team_performance", .arr
           [.obj [("name", .str "Team Alpha"), ("value", .int 94)], .str "junk"])] =
      .ok [summarySection [("Total Work Items", .int 127)],
           sectionFor "priority_distribution" (.obj [("high", .int 18), ("medium", .int 65)]),
           sectionFor "team_performance" (.arr
             [.obj [("name", .str "Team Alpha"), ("value", .int 94)], .str "junk"])] ∧
    titledKey "priority_distribution" = "Priority Distribution" := by
  constructor
  · have h := (C4_metrics_sections
      [("summary", .obj [("Total Work Items", .int 127)]),
       ("priority_distribution", .obj [("high", .int 18), ("medium", .int 65)]),
       ("team_performance", .arr
         [.obj [("name", .str "Team Alpha"), ("value", .int 94)], .str "junk"])]
      [summarySection [("Total Work Items", .int 127)],
       sectionFor "priority_distribution" (.obj [("high", .int 18), ("medium", .int 65)]),
       sectionFor "team_performance" (.arr
         [.obj [("name", .str "Team Alpha"), ("value", .int 94)], .str "junk"])]
      rfl).1 [("Total Work Items", .int 127)] rfl
    exact rfl
  · rfl

theorem getValueAtPath_setValueAtPath (p : List String) :
    ∀ cfg v cfg2, setValueAtPath cfg p v = some cfg2 → p ≠ [] →
      getValueAtPath cfg2 p = v := by
  induction p with
  | nil => intro cfg v cfg2 _ hne; exact absurd rfl hne
  | cons k rest ih =>
    intro cfg v cfg2 hset _
    rcases cfg with _ | b | i | s | items | entries
    · simp [setValueAtPath] at hset
    · simp [setValueAtPath] at hset
    · simp [setValueAtPath] at hset
    · simp [setValueAtPath] at hset
    · simp [setValueAtPath] at hset
    · rcases rest with _ | ⟨r, rs⟩
      · simp only [setValueAtPath, Option.some.injEq] at hset
        rw [← hset]
        simp [getValueAtPath, dictGet_dictSet]
      · simp only [setValueAtPath] at hset
        split at hset
        · rename_i cNew heq
          simp only [Option.some.injEq] at hset
          rw [← hset]
          simp only [getValueAtPath, dictGet_dictSet, if_pos rfl]
          refine ih ((dictGet entries k).getD (.obj [])) v cNew ?_ (by simp)
          simp only [setValueAtPath]
          exact heq
        · simp at hset

/-- C5 counterexample: with no environment variable set and a YAML file that
stores the empty string under project.environment, RinnaConfig.get returns
the coded default "development" instead of the stored YAML value: the merge
tests the existing value with `not`, i.e. by truthiness, so a falsy YAML
value is replaced by the coded default. -/
theorem C5_counterexample :
    (match loadConfig (some (.obj [("project", .obj [("environment", .str "")])]))
        "/root" "1.0.0" with
     | some merged => RinnaConfig.get (fun _ => none) merged "project.environment" .null
     | none => .null) = .str "development" ∧
    JsonVal.str "development" ≠ .str "" := by
  constructor
  · rfl
  · intro h
    injection h with h2
    exact absurd h2 (by decide)

/-- C5 (amended): RinnaConfig.get returns the RINNA_ environment variable
whenever it is set; otherwise the value at the key path of the merged
configuration, falling back to the call-site default when that value is None
(a stored None and a missing path are indistinguishable); and the merge
writes a coded default leaf exactly when the configuration value at its path
is falsy, so a truthy YAML value is kept while a falsy one (not only a
missing one) is replaced by the coded default. -/
theorem C5_config_priority (env : String → Option String) (cfg : JsonVal)
    (key : String) (dflt : JsonVal) :
    (∀ v, env (envVarName key) = some v →
      RinnaConfig.get env cfg key dflt = .str v) ∧
    (env (envVarName key) = none →
      RinnaConfig.get env cfg key dflt =
        match getValueAtPath cfg (splitKey key) with
        | .null => dflt
        | v => v) ∧
    (∀ p v, truthy (getValueAtPath cfg p) = true →
      mergeOne cfg p (.leaf v) = some cfg) ∧
    (∀ p v, truthy (getValueAtPath cfg p) = false →
      mergeOne cfg p (.leaf v) = setValueAtPath cfg p v) ∧
    (∀ p v cfg2, setValueAtPath cfg p v = some cfg2 → p ≠ [] →
      getValueAtPath cfg2 p = v) := by
  refine ⟨?_, ?_, ?_, ?_, fun p v cfg2 h hne =>
    getValueAtPath_setValueAtPath p cfg v cfg2 h hne⟩
  · intro v hv
    simp [RinnaConfig.get, hv]
  · intro h
    simp [RinnaConfig.get, h]
  · intro p v h
    simp [mergeOne, h]
  · intro p v h
    simp [mergeOne, h]

theorem C5_config_priority_witness :
    RinnaConfig.get (fun _ => some "from-env") (.obj []) "project.name" .null =
      .str "from-env" :=
  (C5_config_priority (fun _ => some "from-env") (.obj []) "project.name" .null).1
    "from-env" rfl

theorem parseDigitsAux_append (l1 l2 : List Char) : ∀ acc,
    parseDigitsAux acc (l1 ++ l2) =
      (parseDigitsAux acc l1).bind fun a => parseDigitsAux a l2 := by
  induction l1 with
  | nil => intro acc; rfl
  | cons c rest ih =>
    intro acc
    simp only [List.cons_append, parseDigitsAux]
    match digitVal c with
    | some d => exact ih (acc * 10 + d)
    | none => rfl

theorem digitVal_ofNat (d : Nat) (h : d < 10) :
    digitVal (Char.ofNat (48 + d)) = some d := by
  interval_cases d <;> rfl

theorem natToCharsRev_parse (n : Nat) : ∀ acc,
    parseDigitsAux acc (natToCharsRev n).reverse =
      some (acc * 10 ^ (natToCharsRev n).length + n) := by
  induction n using Nat.strong_induction_on with
  | _ n ih =>
    intro acc
    by_cases h : n = 0
    · subst h
      simp [natToCharsRev, parseDigitsAux]
    · rw [natToCharsRev, dif_neg h]
      rw [List.reverse_cons, parseDigitsAux_append]
      have hlt : n / 10 < n := Nat.div_lt_self (Nat.pos_of_ne_zero h) (by norm_num)
      rw [ih (n / 10) hlt acc]
      simp only [Option.some_bind, parseDigitsAux,
        digitVal_ofNat (n % 10) (Nat.mod_lt n (by norm_num))]
      congr 1
      rw [List.length_cons, pow_succ, ← mul_assoc]
      generalize acc * 10 ^ (natToCharsRev (n / 10)).length = A
      have h2 := Nat.div_add_mod n 10
      omega

theorem parseDigits_eq_aux (c : Char) (rest : List Char) :
    parseDigits (c :: rest) = parseDigitsAux 0 (c :: rest) := by
  simp only [parseDigits, parseDigitsAux]
  match digitVal c with
  | some d => simp
  | none => rfl

theorem parseDigits_natReprChars (n : Nat) :
    parseDigits (natReprChars n) = some n := by
  by_cases h : n = 0
  · subst h; rfl
  · have hne : natToCharsRev n ≠ [] := by
      rw [natToCharsRev, dif_neg h]
      simp
    have hne2 : (natToCharsRev n).reverse ≠ [] := by
      simpa using hne
    obtain ⟨c, t, hct⟩ := List.exists_cons_of_ne_nil hne2
    rw [natReprChars, if_neg h, hct, parseDigits_eq_aux, ← hct,
      natToCharsRev_parse n 0]
    simp

theorem natToCharsRev_digits (n : Nat) : ∀ c ∈ natToCharsRev n,
    ∃ d, d < 10 ∧ c = Char.ofNat (48 + d) := by
  induction n using Nat.strong_induction_on with
  | _ n ih =>
    intro c hc
    by_cases h : n = 0
    · subst h
      rw [natToCharsRev] at hc
      simp at hc
    · rw [natToCharsRev, dif_neg h] at hc
      rcases List.mem_cons.1 hc with h1 | h1
      · exact ⟨n % 10, Nat.mod_lt n (by norm_num), h1⟩
      · exact ih (n / 10) (Nat.div_lt_self (Nat.pos_of_ne_zero h) (by norm_num)) c h1

theorem intRepr_head (i : Int) : ∃ c t, (intRepr i).data = c :: t ∧
    (c = '-' ∨ '0' ≤ c ∧ c ≤ '9') := by
  by_cases hneg : i < 0
  · exact ⟨'-', natReprChars i.natAbs, by simp [intRepr, hneg], Or.inl rfl⟩
  · have hdata : (intRepr i).data = natReprChars i.natAbs := by
      simp [intRepr, hneg]
    by_cases h0 : i.natAbs = 0
    · refine ⟨'0', [], ?_, Or.inr (by decide)⟩
      rw [hdata, natReprChars, if_pos h0]
    · have hne : (natToCharsRev i.natAbs).reverse ≠ [] := by
        simp only [ne_eq, List.reverse_eq_nil_iff]
        rw [natToCharsRev, dif_neg h0]
        simp
      obtain ⟨c, t, hct⟩ := List.exists_cons_of_ne_nil hne
      have hmem : c ∈ natToCharsRev i.natAbs := by
        rw [← List.mem_reverse, hct]
        exact List.mem_cons_self _ _
      obtain ⟨d, hd, hcd⟩ := natToCharsRev_digits i.natAbs c hmem
      refine ⟨c, t, ?_, Or.inr ?_⟩
      · rw [hdata, natReprChars, if_neg h0, hct]
      · subst hcd
        interval_cases d <;> exact ⟨by decide, by decide⟩

theorem intRepr_ne_word (i : Int) (w : String)
    (hw : match w.data with
          | [] => True
          | c :: _ => ¬(c = '-' ∨ '0' ≤ c ∧ c ≤ '9')) :
    intRepr i ≠ w := by
  obtain ⟨c, t, hct, hc⟩ := intRepr_head i
  intro he
  rw [he] at hct
  rw [hct] at hw
  exact hw hc

theorem parseIntText_intRepr (i : Int) :
    parseIntText (intRepr i).data = some i := by
  by_cases hneg : i < 0
  · have hdata : (intRepr i).data = '-' :: natReprChars i.natAbs := by
      simp [intRepr, hneg]
    rw [hdata]
    simp [parseIntText, parseDigits_natReprChars, -Int.natCast_natAbs]
    omega
  · have hdata : (intRepr i).data = natReprChars i.natAbs := by
      simp [intRepr, hneg]
    by_cases h0 : i.natAbs = 0
    · have : i = 0 := by omega
      subst this
      rfl
    · have hne : (natToCharsRev i.natAbs).reverse ≠ [] := by
        simp only [ne_eq, List.reverse_eq_nil_iff]
        rw [natToCharsRev, dif_neg h0]
        simp
      obtain ⟨c, t, hct⟩ := List.exists_cons_of_ne_nil hne
      have hmem : c ∈ natToCharsRev i.natAbs := by
        rw [← List.mem_reverse, hct]
        exact List.mem_cons_self _ _
      obtain ⟨d, hd, hcd⟩ := natToCharsRev_digits i.natAbs c hmem
      have hrepr : natReprChars i.natAbs = c :: t := by
        rw [natReprChars, if_neg h0, hct]
      have hcm : ¬(c = '-') := by
        subst hcd; interval_cases d <;> decide
      have hcp : ¬(c = '+') := by
        subst hcd; interval_cases d <;> decide
      rw [hdata, hrepr]
      simp only [parseIntText, if_neg hcm, if_neg hcp]
      rw [← hrepr, parseDigits_natReprChars]
      simp [-Int.natCast_natAbs]
      omega

theorem resolveScalar_intRepr (i : Int) :
    resolveScalar (intRepr i) = .tint i := by
  have hnull : intRepr i ∉ nullWords := by
    intro hmem
    simp only [nullWords, List.mem_cons, List.not_mem_nil, or_false] at hmem
    rcases hmem with h | h | h | h | h <;>
      exact intRepr_ne_word i _ (by decide) h
  have htrue : intRepr i ∉ trueWords := by
    intro hmem
    simp only [trueWords, List.mem_cons, List.not_mem_nil, or_false] at hmem
    rcases hmem with h | h | h | h | h | h | h | h | h <;>
      exact intRepr_ne_word i _ (by decide) h
  have hfalse : intRepr i ∉ falseWords := by
    intro hmem
    simp only [falseWords, List.mem_cons, List.not_mem_nil, or_false] at hmem
    rcases hmem with h | h | h | h | h | h | h | h | h <;>
      exact intRepr_ne_word i _ (by decide) h
  rw [resolveScalar, if_neg hnull, if_neg htrue, if_neg hfalse,
    parseIntText_intRepr]

theorem constructScalar_strStyle (s : String) :
    constructScalar s (strStyle s) = some (.str s) := by
  by_cases h : resolveScalar s = .tstr
  · rw [strStyle, if_pos h]
    simp [constructScalar, h]
  · rw [strStyle, if_neg h]
    rfl

theorem yamlConstructList_dump (l : List JsonVal)
    (h : ∀ x ∈ l, yamlConstruct (yamlDump x) = some x) :
    yamlConstructList (yamlDumpList l) = some l := by
  induction l with
  | nil => rfl
  | cons v rest ih =>
    rw [yamlDumpList, yamlConstructList,
      h v (List.mem_cons_self _ _),
      ih fun x hx => h x (List.mem_cons_of_mem _ hx)]

theorem yamlConstructPairs_dump (ms : List (String × JsonVal))
    (h : ∀ p ∈ ms, yamlConstruct (yamlDump p.2) = some p.2) :
    yamlConstructPairs (yamlDumpPairs ms) = some ms := by
  induction ms with
  | nil => rfl
  | cons p rest ih =>
    obtain ⟨k, v⟩ := p
    rw [yamlDumpPairs, yamlConstructPairs]
    have hk : yamlConstruct (.scalar k (strStyle k)) = some (.str k) :=
      constructScalar_strStyle k
    rw [hk, h (k, v) (List.mem_cons_self _ _),
      ih fun q hq => h q (List.mem_cons_of_mem _ hq)]

/-- Loading back a dumped YAML document gives exactly the original value:
the emitter quotes precisely the strings whose plain form the resolver
would read as a different type. -/
theorem yamlConstruct_yamlDump : ∀ v, yamlConstruct (yamlDump v) = some v := by
  refine JsonVal.myInd _ rfl ?_ ?_ ?_ ?_ ?_
  · intro b
    cases b <;> rfl
  · intro i
    simp [yamlDump, yamlConstruct, constructScalar, resolveScalar_intRepr]
  · intro s
    rw [yamlDump, yamlConstruct]
    exact constructScalar_strStyle s
  · intro l ih
    rw [yamlDump, yamlConstruct, yamlConstructList_dump l ih]
  · intro ms ih
    rw [yamlDump, yamlConstruct, yamlConstructPairs_dump ms ih]

theorem jsonDumpTokens_length_pos (v : JsonVal) :
    0 < (jsonDumpTokens v).length := by
  cases v <;> simp [jsonDumpTokens]

theorem jsonDump_head_ne_rbrack (v : JsonVal) (rest : List JTok) :
    (jsonDumpTokens v ++ rest).head? ≠ some .rbrack := by
  cases v <;> simp [jsonDumpTokens]

theorem jsonDump_head_ne_rbrace (v : JsonVal) (rest : List JTok) :
    (jsonDumpTokens v ++ rest).head? ≠ some .rbrace := by
  cases v <;> simp [jsonDumpTokens]

theorem jsonParseItems_dump (l : List JsonVal)
    (hl : ∀ x ∈ l, ∀ rest fuel, (jsonDumpTokens x).length ≤ fuel →
      jsonParseVal fuel (jsonDumpTokens x ++ rest) = some (x, rest)) :
    l ≠ [] → ∀ rest fuel, (jsonDumpArr l).length < fuel →
      jsonParseVal.items fuel (jsonDumpArr l ++ .rbrack :: rest) =
        some (l, .rbrack :: rest) := by
  induction l with
  | nil => intro h; exact absurd rfl h
  | cons v tail ih =>
    intro _ rest fuel hfuel
    match fuel, hfuel with
    | f + 1, hfuel =>
    rcases tail with _ | ⟨w, tail2⟩
    · simp only [jsonDumpArr] at hfuel ⊢
      rw [jsonParseVal.items,
        if_neg (jsonDump_head_ne_rbrack v (.rbrack :: rest)),
        hl v (List.mem_cons_self _ _) (.rbrack :: rest) f (by omega)]
    · have hlen : (jsonDumpArr (v :: w :: tail2)).length =
          (jsonDumpTokens v).length + 1 + (jsonDumpArr (w :: tail2)).length := by
        simp [jsonDumpArr]
        omega
      have hvpos := jsonDumpTokens_length_pos v
      have hassoc : jsonDumpArr (v :: w :: tail2) ++ .rbrack :: rest =
          jsonDumpTokens v ++
            .comma :: (jsonDumpArr (w :: tail2) ++ .rbrack :: rest) := by
        simp [jsonDumpArr]
      rw [hassoc, jsonParseVal.items,
        if_neg (jsonDump_head_ne_rbrack v _)]
      simp only [hl v (List.mem_cons_self _ _) _ f (by omega),
        ih (fun x hx => hl x (List.mem_cons_of_mem _ hx)) (by simp) rest f
          (by omega)]

theorem jsonParseMembers_dump (ms : List (String × JsonVal))
    (hm : ∀ p ∈ ms, ∀ rest fuel, (jsonDumpTokens p.2).length ≤ fuel →
      jsonParseVal fuel (jsonDumpTokens p.2 ++ rest) = some (p.2, rest)) :
    ms ≠ [] → ∀ rest fuel, (jsonDumpObj ms).length < fuel →
      jsonParseVal.members fuel (jsonDumpObj ms ++ .rbrace :: rest) =
        some (ms, .rbrace :: rest) := by
  induction ms with
  | nil => intro h; exact absurd rfl h
  | cons p tail ih =>
    obtain ⟨k, v⟩ := p
    intro _ rest fuel hfuel
    match fuel, hfuel with
    | f + 1, hfuel =>
    rcases tail with _ | ⟨q, tail2⟩
    · have hfv : (jsonDumpTokens v).length ≤ f := by
        simp [jsonDumpObj] at hfuel
        omega
      simp only [jsonDumpObj]
      rw [List.cons_append, List.cons_append, jsonParseVal.members]
      simp only [List.head?_cons, if_neg (by simp : ¬some (JTok.tstr k) = some .rbrace)]
      rw [hm (k, v) (List.mem_cons_self _ _) (.rbrace :: rest) f (by simpa using hfv)]
    · have hlen : (jsonDumpObj ((k, v) :: q :: tail2)).length =
          (jsonDumpTokens v).length + 3 + (jsonDumpObj (q :: tail2)).length := by
        simp [jsonDumpObj]
        omega
      have hvpos := jsonDumpTokens_length_pos v
      have hassoc : jsonDumpObj ((k, v) :: q :: tail2) ++ .rbrace :: rest =
          .tstr k :: .colon :: (jsonDumpTokens v ++
            .comma :: (jsonDumpObj (q :: tail2) ++ .rbrace :: rest)) := by
        simp [jsonDumpObj]
      rw [hassoc, jsonParseVal.members]
      simp only [List.head?_cons, if_neg (by simp : ¬some (JTok.tstr k) = some .rbrace)]
      simp only [hm (k, v) (List.mem_cons_self _ _) _ f (by simp; omega),
        ih (fun x hx => hm x (List.mem_cons_of_mem _ hx)) (by simp) rest f
          (by omega)]

theorem jsonParseVal_dump : ∀ v : JsonVal, ∀ rest fuel,
    (jsonDumpTokens v).length ≤ fuel →
    jsonParseVal fuel (jsonDumpTokens v ++ rest) = some (v, rest) := by
  refine JsonVal.myInd _ ?_ ?_ ?_ ?_ ?_ ?_
  · intro rest fuel hf
    match fuel, hf with
    | f + 1, _ => rfl
  · intro b rest fuel hf
    match fuel, hf with
    | f + 1, _ => rfl
  · intro i rest fuel hf
    match fuel, hf with
    | f + 1, _ => rfl
  · intro s rest fuel hf
    match fuel, hf with
    | f + 1, _ => rfl
  · intro l ih rest fuel hf
    have hlen : (jsonDumpTokens (.arr l)).length = (jsonDumpArr l).length + 2 := by
      simp [jsonDumpTokens]
    match fuel, hf with
    | f + 1, hf =>
    have hassoc : jsonDumpTokens (.arr l) ++ rest =
        .lbrack :: (jsonDumpArr l ++ .rbrack :: rest) := by
      simp [jsonDumpTokens]
    rw [hassoc, jsonParseVal]
    rcases l with _ | ⟨v, tail⟩
    · have hf2 : 1 ≤ f := by rw [hlen] at hf; simp [jsonDumpArr] at hf; omega
      match f, hf2 with
      | f2 + 1, _ =>
      simp [jsonDumpArr, jsonParseVal.items]
    · rw [jsonParseItems_dump (v :: tail) ih (by simp) rest f
        (by rw [hlen] at hf; omega)]
  · intro ms ih rest fuel hf
    have hlen : (jsonDumpTokens (.obj ms)).length = (jsonDumpObj ms).length + 2 := by
      simp [jsonDumpTokens]
    match fuel, hf with
    | f + 1, hf =>
    have hassoc : jsonDumpTokens (.obj ms) ++ rest =
        .lbrace :: (jsonDumpObj ms ++ .rbrace :: rest) := by
      simp [jsonDumpTokens]
    rw [hassoc, jsonParseVal]
    rcases ms with _ | ⟨p, tail⟩
    · have hf2 : 1 ≤ f := by rw [hlen] at hf; simp [jsonDumpObj] at hf; omega
      match f, hf2 with
      | f2 + 1, _ =>
      simp [jsonDumpObj, jsonParseVal.members]
    · rw [jsonParseMembers_dump (p :: tail) ih (by simp) rest f
        (by rw [hlen] at hf; omega)]

/-- Parsing back a dumped JSON token stream gives exactly the original
value. -/
theorem jsonParseTop_dump (v : JsonVal) :
    jsonParseTop (jsonDumpTokens v) = some v := by
  rw [jsonParseTop]
  have h := jsonParseVal_dump v [] ((jsonDumpTokens v).length + 1) (by omega)
  rw [List.append_nil] at h
  rw [h]

/-- C7: for every JSON-representable document, converting its YAML form to
JSON and back (and the converse round trip) yields exactly the document it
started from: the YAML-to-JSON conversion of the dumped YAML form produces
the dumped JSON form of the same value, the JSON-to-YAML conversion
produces the dumped YAML form of the same value, and each composition
returns the starting form, so all keys and values are preserved. -/
theorem C7_yaml_json_roundtrip (v : JsonVal) :
    convert_yaml_to_json (yamlDump v) = some (jsonDumpTokens v) ∧
    convert_json_to_yaml (jsonDumpTokens v) = some (yamlDump v) ∧
    (convert_yaml_to_json (yamlDump v)).bind convert_json_to_yaml =
      some (yamlDump v) ∧
    (convert_json_to_yaml (jsonDumpTokens v)).bind convert_yaml_to_json =
      some (jsonDumpTokens v) := by
  have h1 : convert_yaml_to_json (yamlDump v) = some (jsonDumpTokens v) := by
    rw [convert_yaml_to_json, yamlConstruct_yamlDump]
    rfl
  have h2 : convert_json_to_yaml (jsonDumpTokens v) = some (yamlDump v) := by
    rw [convert_json_to_yaml, jsonParseTop_dump]
    rfl
  exact ⟨h1, h2, by rw [h1, Option.some_bind, h2], by rw [h2, Option.some_bind, h1]⟩
